import Mathlib

/-!
Verification of the F1 Racing Hub data layer (service layer plus the list
page's query logic).

The TypeScript source is shallowly embedded:
* interfaces from the types module become structures;
* the service functions of the API module become pure functions where the
  HTTP response (and its possible failure) is passed in explicitly as an
  argument of type Except FetchError _ — query parameters such as
  session_key, driver_number or year are absorbed into that argument, since
  they only select which remote response comes back;
* JavaScript falsiness of optional strings (null / undefined / empty string)
  is modelled by jsOrStr and truthyStr;
* the stable Array.prototype.sort with a numeric comparator cmp is modelled
  as List.mergeSort with the relation (cmp a b <= 0): both are stable sorts
  with respect to the same total preorder, hence produce the same output;
* locale-aware string comparison (localeCompare) is modelled as the
  lexicographic comparison of Lean strings: the claims proved below depend
  only on it being a linear order, never on a particular collation;
* Date.getTime used by the session ordering is passed in as a function
  argument, since date parsing is a collaborator of the core.
-/

/-- Driver record, from the F1Driver interface of the types module. -/
structure F1Driver where
  broadcast_name : String := ""
  country_code : Option String := none
  driver_number : Nat := 0
  first_name : String := ""
  full_name : String := ""
  headshot_url : Option String := none
  last_name : String := ""
  meeting_key : Nat := 0
  name_acronym : String := ""
  session_key : Nat := 0
  team_colour : Option String := none
  team_name : Option String := none
deriving DecidableEq

/-- Session record, from the F1Session interface. -/
structure F1Session where
  circuit_key : Nat := 0
  circuit_short_name : String := ""
  country_code : String := ""
  country_name : String := ""
  date_end : String := ""
  date_start : String := ""
  gmt_offset : String := ""
  location : String := ""
  meeting_key : Nat := 0
  session_key : Nat := 0
  session_name : String := ""
  session_type : String := ""
  year : Nat := 0
deriving DecidableEq

/-- Meeting record, from the F1Meeting interface. -/
structure F1Meeting where
  circuit_key : Nat := 0
  circuit_short_name : String := ""
  country_code : String := ""
  country_name : String := ""
  date_start : String := ""
  gmt_offset : String := ""
  location : String := ""
  meeting_key : Nat := 0
  meeting_name : String := ""
  meeting_official_name : String := ""
  year : Nat := 0
deriving DecidableEq

/-- Lap record, from the F1Lap interface (fractional fields as rationals). -/
structure F1Lap where
  date_start : String := ""
  driver_number : Nat := 0
  duration_sector_1 : Option Rat := none
  duration_sector_2 : Option Rat := none
  duration_sector_3 : Option Rat := none
  i1_speed : Option Rat := none
  i2_speed : Option Rat := none
  is_pit_out_lap : Bool := false
  lap_duration : Option Rat := none
  lap_number : Nat := 0
  meeting_key : Nat := 0
  segments_sector_1 : Option (List Nat) := none
  segments_sector_2 : Option (List Nat) := none
  segments_sector_3 : Option (List Nat) := none
  session_key : Nat := 0
  st_speed : Option Rat := none
deriving DecidableEq

/-- Position record, from the F1Position interface. -/
structure F1Position where
  date : String := ""
  driver_number : Nat := 0
  meeting_key : Nat := 0
  position : Nat := 0
  session_key : Nat := 0
deriving DecidableEq

/-- Aggregated team, from the F1Team interface. -/
structure F1Team where
  team_name : String := ""
  team_colour : Option String := none
  drivers : List F1Driver := []
  country_codes : List String := []
deriving DecidableEq

/-- Sort options for the drivers list, from the DriverSortOption type. -/
inductive DriverSortOption where
  | name
  | team
  | driver_number
  | country
deriving DecidableEq

/-- Sort direction, from the SortOrder type. -/
inductive SortOrder where
  | asc
  | desc
deriving DecidableEq

/-- Sort configuration, from the SortConfig interface. -/
structure SortConfig where
  option : DriverSortOption
  order : SortOrder
deriving DecidableEq

/-- The single failure mode of the remote gateway: network error, timeout,
or non-2xx response of the backing HTTP service. -/
inductive FetchError where
  | remoteUnavailable
deriving DecidableEq

/-- JavaScript a || b for an optional string a: the default is taken when
the value is absent (null / undefined) or the empty string (both falsy). -/
def jsOrStr (o : Option String) (dflt : String) : String :=
  match o with
  | some s => if s = "" then dflt else s
  | none => dflt

/-- JavaScript truthiness of an optional string. -/
def truthyStr (o : Option String) : Bool :=
  match o with
  | some s => !(s == "")
  | none => false

/-- JavaScript toLowerCase, character by character. -/
def jsToLower (s : String) : String :=
  String.mk (s.data.map Char.toLower)

/-- JavaScript toUpperCase, character by character. -/
def jsToUpper (s : String) : String :=
  String.mk (s.data.map Char.toUpper)

/-- JavaScript String.prototype.split with a single-character separator,
on the character list: consecutive separators yield empty tokens, and the
empty input yields one empty token, exactly as in JavaScript. -/
def splitCharList (sep : Char) : List Char → List (List Char)
  | [] => [[]]
  | c :: rest =>
    match splitCharList sep rest with
    | [] => [[]]
    | t :: ts => if c == sep then [] :: t :: ts else (c :: t) :: ts

/-- JavaScript s.split(sep).pop(): the last token of the split. -/
def jsSplitLast (s : String) (sep : Char) : Option String :=
  ((splitCharList sep s.data).getLast?).map (fun cs => String.mk cs)

/-- Contiguous-substring check on character lists: the pattern occurs as
an infix. The empty pattern occurs in everything, as in JavaScript. -/
def charsInfixOf (pat : List Char) : List Char → Bool
  | [] => pat.isEmpty
  | c :: rest => pat.isPrefixOf (c :: rest) || charsInfixOf pat rest

/-- JavaScript a.includes(b): b occurs as a contiguous substring of a. -/
def strIncludes (s pat : String) : Bool :=
  charsInfixOf pat.data s.data

/-- The static surname-to-country table of the service module. -/
def countryMap : List (String × String) :=
  [("VERSTAPPEN", "NLD"),
   ("NORRIS", "GBR"),
   ("HAMILTON", "GBR"),
   ("RUSSELL", "GBR"),
   ("LECLERC", "MON"),
   ("SAINZ", "ESP"),
   ("ALONSO", "ESP"),
   ("PIASTRI", "AUS"),
   ("GASLY", "FRA"),
   ("OCON", "FRA"),
   ("TSUNODA", "JPN"),
   ("ALBON", "THA"),
   ("STROLL", "CAN"),
   ("HULKENBERG", "DEU"),
   ("BEARMAN", "GBR"),
   ("ANTONELLI", "ITA"),
   ("COLAPINTO", "ARG"),
   ("BORTOLETO", "BRA"),
   ("HADJAR", "FRA"),
   ("LAWSON", "NZL")]

/-- getCountryCodeFallback of the service module: uppercase the last
space-separated token of the driver name, look it up in the static table,
and fall back to the sentinel INT. -/
def getCountryCodeFallback (driverName : String) : String :=
  let lastName := (((jsSplitLast driverName ' ').map jsToUpper)).getD ""
  jsOrStr ((countryMap.find? (fun p => p.1 == lastName)).map (fun p => p.2)) "INT"

/-- The country-code backfill applied by fetchDrivers to every raw driver:
driver.country_code || getCountryCodeFallback(driver.full_name), all other
fields unchanged. -/
def normalizeDriver (d : F1Driver) : F1Driver :=
  { d with country_code := some (jsOrStr d.country_code (getCountryCodeFallback d.full_name)) }

/-- fetchDrivers of the service module: on a successful response, every raw
driver gets the country-code backfill; on failure the catch block throws a
fresh error (modelled as an error result). -/
def fetchDrivers (remote : Except FetchError (List F1Driver)) :
    Except String (List F1Driver) :=
  match remote with
  | .ok drivers => .ok (drivers.map normalizeDriver)
  | .error _ => .error "Failed to fetch F1 drivers data"

/-- fetchDriverById of the service module: looks up the driver number in
the fetched collection; the catch block swallows any failure and returns
null, so the operation itself never produces an error. -/
def fetchDriverById (remote : Except FetchError (List F1Driver))
    (driverNumber : Nat) : Except String (Option F1Driver) :=
  match fetchDrivers remote with
  | .ok drivers => .ok (drivers.find? (fun d => d.driver_number == driverNumber))
  | .error _ => .ok none

/-- The team key used by fetchTeams: driver.team_name || the literal
Unknown Team. -/
def teamKey (d : F1Driver) : String :=
  jsOrStr d.team_name "Unknown Team"

/-- The per-driver country code used by fetchTeams: driver.country_code ||
the sentinel INT. -/
def driverCountry (d : F1Driver) : String :=
  jsOrStr d.country_code "INT"

/-- The body of the forEach of fetchTeams once the team record exists:
push the driver onto the member list and add its country code if absent. -/
def pushDriver (team : F1Team) (driver : F1Driver) : F1Team :=
  let countryCode := driverCountry driver
  { team with
    drivers := team.drivers ++ [driver],
    country_codes :=
      if team.country_codes.contains countryCode then team.country_codes
      else team.country_codes ++ [countryCode] }

/-- The fresh team record fetchTeams seeds for a newly seen team name,
before the current driver is pushed. -/
def newTeam (teamName : String) (driver : F1Driver) : F1Team :=
  { team_name := teamName
    team_colour := driver.team_colour
    drivers := []
    country_codes := [] }

/-- One forEach step of fetchTeams, acting on the insertion-ordered map of
teams (a JavaScript Map keyed by team name, new keys appended at the end,
existing keys updated in place). -/
def insertDriver (driver : F1Driver) : List F1Team → List F1Team
  | [] => [pushDriver (newTeam (teamKey driver) driver) driver]
  | t :: ts =>
    if t.team_name = teamKey driver then pushDriver t driver :: ts
    else t :: insertDriver driver ts

/-- The aggregation loop of fetchTeams over an already fetched drivers
list: fold every driver into the insertion-ordered team map and read the
teams back off in first-seen order. -/
def aggregateTeams (drivers : List F1Driver) : List F1Team :=
  drivers.foldl (fun acc d => insertDriver d acc) []

/-- fetchTeams of the service module: aggregates the fetched drivers; the
catch block rethrows a fresh error when fetchDrivers failed. -/
def fetchTeams (remote : Except FetchError (List F1Driver)) :
    Except String (List F1Team) :=
  match fetchDrivers remote with
  | .ok drivers => .ok (aggregateTeams drivers)
  | .error _ => .error "Failed to fetch F1 teams data"

/-- The descending lap comparator of fetchDriverLaps, as the relation fed
to the stable sort: comparator (a, b) = b.lap_number - a.lap_number is
non-positive exactly when b.lap_number is at most a.lap_number. -/
def lapDescLe (a b : F1Lap) : Bool :=
  decide (b.lap_number ≤ a.lap_number)

/-- fetchDriverLaps of the service module: sort the fetched laps by lap
number descending, keep the first limit of them; the catch block swallows
any failure and returns the empty list. -/
def fetchDriverLaps (remote : Except FetchError (List F1Lap))
    (limit : Nat := 10) : List F1Lap :=
  match remote with
  | .ok laps => (laps.mergeSort lapDescLe).take limit
  | .error _ => []

/-- fetchRecentSessions of the service module: sort the fetched sessions
by the parsed start date descending, keep the first limit of them; the
catch block swallows any failure. Date parsing is the getTime argument. -/
def fetchRecentSessions (getTime : String → Int)
    (remote : Except FetchError (List F1Session)) (limit : Nat := 5) :
    List F1Session :=
  match remote with
  | .ok sessions =>
      (sessions.mergeSort
        (fun a b => decide (getTime b.date_start ≤ getTime a.date_start))).take limit
  | .error _ => []

/-- fetchMeetings of the service module: returns the fetched meetings; the
catch block swallows any failure and returns the empty list. -/
def fetchMeetings (remote : Except FetchError (List F1Meeting)) : List F1Meeting :=
  match remote with
  | .ok meetings => meetings
  | .error _ => []

/-- fetchPositions of the service module: returns the fetched positions;
the catch block swallows any failure and returns the empty list. -/
def fetchPositions (remote : Except FetchError (List F1Position)) : List F1Position :=
  match remote with
  | .ok positions => positions
  | .error _ => []

/-- fetchSessionResults of the service module: response.data || [] on
success (the record type of the untyped results is a parameter); the catch
block swallows any failure and returns the empty list. -/
def fetchSessionResults {α : Type} (remote : Except FetchError (Option (List α))) :
    List α :=
  match remote with
  | .ok data => data.getD []
  | .error _ => []

/-- JavaScript Array.prototype.findIndex: the index of the first element
satisfying the predicate, or -1 when none does. -/
def jsFindIndex {α : Type} (p : α → Bool) (l : List α) : Int :=
  match l.findIdx? p with
  | some i => (i : Int)
  | none => -1

/-- The ascending driver-number sort of getDriverNavigation: stable sort
under the comparator a.driver_number - b.driver_number. -/
def sortDriversByNumber (drivers : List F1Driver) : List F1Driver :=
  drivers.mergeSort (fun a b => decide (a.driver_number ≤ b.driver_number))

/-- The body of getDriverNavigation once the drivers are fetched: sort
ascending by driver number, find the index of the current driver (-1 when
absent, as findIndex does), and read off the two neighbours guarded the
way the source guards them. -/
def navigateDrivers (drivers : List F1Driver) (currentDriverNumber : Nat) :
    Option F1Driver × Option F1Driver :=
  let sortedDrivers := sortDriversByNumber drivers
  let currentIndex : Int :=
    jsFindIndex (fun d => d.driver_number == currentDriverNumber) sortedDrivers
  let previous : Option F1Driver :=
    if 0 < currentIndex then sortedDrivers[(currentIndex - 1).toNat]? else none
  let next : Option F1Driver :=
    if currentIndex < (sortedDrivers.length : Int) - 1 then
      sortedDrivers[(currentIndex + 1).toNat]? else none
  (previous, next)

/-- getDriverNavigation of the service module: navigates the fetched
drivers; the catch block swallows any failure and returns the pair of
nulls. -/
def getDriverNavigation (remote : Except FetchError (List F1Driver))
    (currentDriverNumber : Nat) : Option F1Driver × Option F1Driver :=
  match fetchDrivers remote with
  | .ok drivers => navigateDrivers drivers currentDriverNumber
  | .error _ => (none, none)

/-- The search predicate of the list page: case-insensitive substring
match of the query against full name, broadcast name, or (when present
and non-empty) team name. -/
def matchesSearch (driver : F1Driver) (searchQuery : String) : Bool :=
  strIncludes (jsToLower driver.full_name) (jsToLower searchQuery) ||
  strIncludes (jsToLower driver.broadcast_name) (jsToLower searchQuery) ||
  (truthyStr driver.team_name &&
    strIncludes (jsToLower (driver.team_name.getD "")) (jsToLower searchQuery))

/-- The team filter of the list page: empty filter passes everything,
otherwise the team name must match exactly. -/
def matchesTeam (driver : F1Driver) (selectedTeam : String) : Bool :=
  selectedTeam == "" || driver.team_name == some selectedTeam

/-- The country filter of the list page: empty filter passes everything,
otherwise driver.country_code || INT must match exactly. -/
def matchesCountry (driver : F1Driver) (selectedCountry : String) : Bool :=
  selectedCountry == "" || jsOrStr driver.country_code "INT" == selectedCountry

/-- The conjunction of the three filter predicates of the list page. -/
def driverPasses (driver : F1Driver) (searchQuery selectedTeam selectedCountry : String) :
    Bool :=
  matchesSearch driver searchQuery &&
  matchesTeam driver selectedTeam &&
  matchesCountry driver selectedCountry

/-- localeCompare of two strings, modelled on the lexicographic linear
order of Lean strings: negative, zero or positive as the first compares
below, equal to, or above the second. -/
def localeCompare (a b : String) : Int :=
  if a < b then -1 else if b < a then 1 else 0

/-- The comparator of the list page's sort: selects the sort value per the
configured option (strings compared with localeCompare, driver numbers by
subtraction, absent team names as the empty string, absent country codes
as ZZZ) and negates the result for descending order. -/
def sortValueCompare (sortConfig : SortConfig) (a b : F1Driver) : Int :=
  let base : Int :=
    match sortConfig.option with
    | .name => localeCompare a.full_name b.full_name
    | .team => localeCompare (jsOrStr a.team_name "") (jsOrStr b.team_name "")
    | .driver_number => (a.driver_number : Int) - (b.driver_number : Int)
    | .country => localeCompare (jsOrStr a.country_code "ZZZ") (jsOrStr b.country_code "ZZZ")
  match sortConfig.order with
  | .asc => base
  | .desc => -base

/-- The sort relation induced by the comparator, as fed to the stable
sort: a sorts no later than b when the comparator is non-positive. -/
def sortLe (sortConfig : SortConfig) (a b : F1Driver) : Bool :=
  decide (sortValueCompare sortConfig a b ≤ 0)

/-- filteredAndSortedDrivers of the list page: filter by search text, team
and country, then stable-sort by the configured comparator. -/
def filteredAndSortedDrivers (drivers : List F1Driver)
    (searchQuery selectedTeam selectedCountry : String)
    (sortConfig : SortConfig) : List F1Driver :=
  (drivers.filter
    (fun d => driverPasses d searchQuery selectedTeam selectedCountry)).mergeSort
    (sortLe sortConfig)

/-- Sample raw driver record used to exercise the theorems on concrete
inputs: country code missing, surname present in the fallback table. -/
def rawVer : F1Driver :=
  { full_name := "Max Verstappen", driver_number := 1 }

/-- Sample driver 1 for concrete instances: team Alpha, no country code. -/
def sampleD1 : F1Driver :=
  { driver_number := 1, full_name := "A One", broadcast_name := "A ONE",
    team_name := some "Alpha" }

/-- Sample driver 2 for concrete instances: same team Alpha as driver 1. -/
def sampleD2 : F1Driver :=
  { driver_number := 2, full_name := "B Two", broadcast_name := "B TWO",
    team_name := some "Alpha" }

/-- Sample driver 3 for concrete instances: team Beta, country GBR. -/
def sampleD3 : F1Driver :=
  { driver_number := 3, full_name := "C Three", broadcast_name := "C THREE",
    team_name := some "Beta", country_code := some "GBR" }

/-- A lap with a given lap number (all other fields defaulted), for the
concrete scenario. -/
def mkLap (k : Nat) : F1Lap :=
  { lap_number := k, driver_number := 1 }

/-- Twelve laps with lap numbers 1 through 12, in ascending input order. -/
def twelveLaps : List F1Lap :=
  (List.range 12).map (fun k => mkLap (k + 1))

/-- The team names of an aggregation accumulator, in order. -/
def teamNames (teams : List F1Team) : List String :=
  teams.map (fun t => t.team_name)

/-- The member list of the first team with the given name in an
accumulator (the JavaScript Map holds at most one), or the empty list
when no such team exists. -/
def driversOfTeam : List F1Team → String → List F1Driver
  | [], _ => []
  | t :: ts, name => if t.team_name = name then t.drivers else driversOfTeam ts name

/-- The total number of team members across an accumulator. -/
def totalMembers (teams : List F1Team) : Nat :=
  (teams.map (fun t => t.drivers.length)).sum

/-- The team record produced for the sample drivers 1 and 2. -/
def tAlpha : F1Team :=
  { team_name := "Alpha", team_colour := none,
    drivers := [sampleD1, sampleD2], country_codes := ["INT"] }

theorem jsOrStr_ne_empty (o : Option String) (dflt : String) (h : dflt ≠ "") :
    jsOrStr o dflt ≠ "" := by
  cases o with
  | none => simpa [jsOrStr] using h
  | some s =>
    by_cases hs : s = "" <;> simp [jsOrStr, hs, h]

theorem getCountryCodeFallback_ne_empty (name : String) :
    getCountryCodeFallback name ≠ "" := by
  unfold getCountryCodeFallback
  exact jsOrStr_ne_empty _ _ (by decide)

/-- C1 counterexample: on a failing fetch, the drivers and teams listing
operations do not return an empty sequence — each propagates an error to
its caller. -/
theorem fetchDrivers_fetchTeams_propagate_on_failure :
    fetchDrivers (.error .remoteUnavailable) = .error "Failed to fetch F1 drivers data" ∧
    fetchTeams (.error .remoteUnavailable) = .error "Failed to fetch F1 teams data" :=
  ⟨rfl, rfl⟩

/-- C1 (amended): when the underlying fetch fails with RemoteUnavailable,
the laps, sessions, meetings, positions and session-results listing
operations return an empty sequence and never propagate the error, while
the drivers and teams listing operations propagate an error result. -/
theorem listing_operations_on_failure :
    (∀ limit : Nat, fetchDriverLaps (.error .remoteUnavailable) limit = []) ∧
    (∀ (getTime : String → Int) (limit : Nat),
      fetchRecentSessions getTime (.error .remoteUnavailable) limit = []) ∧
    fetchMeetings (.error .remoteUnavailable) = [] ∧
    fetchPositions (.error .remoteUnavailable) = [] ∧
    (@fetchSessionResults Unit (.error .remoteUnavailable) = []) ∧
    (∃ msg, fetchDrivers (.error .remoteUnavailable) = .error msg) ∧
    (∃ msg, fetchTeams (.error .remoteUnavailable) = .error msg) :=
  ⟨fun _ => rfl, fun _ _ => rfl, rfl, rfl, rfl,
   ⟨"Failed to fetch F1 drivers data", rfl⟩,
   ⟨"Failed to fetch F1 teams data", rfl⟩⟩

/-- C2 counterexample: when the underlying fetch fails, the singular
driver lookup does not propagate the error — it swallows the failure and
returns a null result. -/
theorem fetchDriverById_swallows_failure :
    fetchDriverById (.error .remoteUnavailable) 1 = .ok none := rfl

/-- C2 (amended): the singular driver lookup never produces an error: on a
failing fetch it returns null, and on a successful fetch it returns null
exactly when no driver in the fetched (normalized) collection has the
requested driver number. -/
theorem fetchDriverById_spec (remote : Except FetchError (List F1Driver)) (n : Nat) :
    (∀ e, remote = .error e → fetchDriverById remote n = .ok none) ∧
    (∀ raws, remote = .ok raws →
      fetchDriverById remote n =
        .ok ((raws.map normalizeDriver).find? (fun d => d.driver_number == n)) ∧
      (fetchDriverById remote n = .ok none ↔
        ∀ d ∈ raws.map normalizeDriver, d.driver_number ≠ n)) := by
  constructor
  · rintro e rfl
    rfl
  · rintro raws rfl
    constructor
    · rfl
    · show Except.ok ((raws.map normalizeDriver).find? (fun d => d.driver_number == n)) = .ok none ↔ _
      rw [Except.ok.injEq, List.find?_eq_none]
      constructor
      · intro h d hd
        have := h d hd
        simpa using this
      · intro h d hd
        simpa using h d hd

/-- Witness for the amended C2 theorem at concrete inputs. -/
theorem fetchDriverById_spec_witness :
    fetchDriverById (.error .remoteUnavailable) 1 = .ok none ∧
    fetchDriverById (.ok [rawVer]) 1 =
      .ok (([rawVer].map normalizeDriver).find? (fun d => d.driver_number == 1)) :=
  ⟨(fetchDriverById_spec (.error .remoteUnavailable) 1).1 .remoteUnavailable rfl,
   ((fetchDriverById_spec (.ok [rawVer]) 1).2 [rawVer] rfl).1⟩

theorem normalizeDriver_country_code (d : F1Driver) :
    (normalizeDriver d).country_code =
      some (jsOrStr d.country_code (getCountryCodeFallback d.full_name)) := rfl

/-- C8: the field normalizer is idempotent — normalizing an already
normalized driver changes nothing, since the backfilled country code is
never empty and is therefore kept by the second pass. -/
theorem normalizeDriver_idempotent (d : F1Driver) :
    normalizeDriver (normalizeDriver d) = normalizeDriver d := by
  cases h : d.country_code with
  | none =>
    simp [normalizeDriver, jsOrStr, h, getCountryCodeFallback_ne_empty d.full_name]
  | some s =>
    by_cases hs : s = "" <;>
      simp [normalizeDriver, jsOrStr, h, hs, getCountryCodeFallback_ne_empty d.full_name]

/-- C9: every driver of a successful fetchDrivers result carries a
non-empty country code; when the raw record's code was null or empty, the
result is exactly the fallback derived from the full name. -/
theorem fetchDrivers_country_code_nonempty
    (remote : Except FetchError (List F1Driver)) (ds : List F1Driver)
    (h : fetchDrivers remote = .ok ds) :
    (∀ d ∈ ds, ∃ c, d.country_code = some c ∧ c ≠ "") ∧
    (∀ raws, remote = .ok raws →
      ds = raws.map normalizeDriver ∧
      ∀ r ∈ raws, (r.country_code = none ∨ r.country_code = some "") →
        (normalizeDriver r).country_code =
          some (getCountryCodeFallback r.full_name)) := by
  constructor
  · intro d hd
    cases remote with
    | error e => simp [fetchDrivers] at h
    | ok raws =>
      simp only [fetchDrivers, Except.ok.injEq] at h
      subst h
      obtain ⟨r, _, rfl⟩ := List.mem_map.mp hd
      exact ⟨jsOrStr r.country_code (getCountryCodeFallback r.full_name), rfl,
        jsOrStr_ne_empty _ _ (getCountryCodeFallback_ne_empty r.full_name)⟩
  · rintro raws rfl
    simp only [fetchDrivers, Except.ok.injEq] at h
    refine ⟨h.symm, ?_⟩
    intro r _ hr
    rcases hr with hr | hr <;> simp [normalizeDriver, jsOrStr, hr]

/-- Witness for the C9 theorem at a concrete input: a raw driver with a
null country code comes back with the non-empty fallback code. -/
theorem fetchDrivers_country_code_nonempty_witness :
    fetchDrivers (.ok [rawVer]) = .ok ([rawVer].map normalizeDriver) ∧
    (∀ d ∈ [rawVer].map normalizeDriver, ∃ c, d.country_code = some c ∧ c ≠ "") :=
  ⟨rfl, (fetchDrivers_country_code_nonempty (.ok [rawVer])
    ([rawVer].map normalizeDriver) rfl).1⟩

/-- C10: on an empty drivers collection the navigation core returns the
pair of nulls for every requested driver number — the not-found boundary
of returning the first element as next cannot occur on an empty list; the
same holds for the full operation on an empty successful fetch. -/
theorem navigateDrivers_empty (n : Nat) :
    navigateDrivers [] n = (none, none) ∧
    getDriverNavigation (.ok []) n = (none, none) := by
  constructor <;>
    simp [navigateDrivers, getDriverNavigation, fetchDrivers, sortDriversByNumber,
      jsFindIndex]

theorem lapDescLe_trans (a b c : F1Lap) (hab : lapDescLe a b = true)
    (hbc : lapDescLe b c = true) : lapDescLe a c = true := by
  simp only [lapDescLe, decide_eq_true_eq] at *
  omega

theorem lapDescLe_total (a b : F1Lap) : lapDescLe a b || lapDescLe b a := by
  simp only [lapDescLe, Bool.or_eq_true, decide_eq_true_eq]
  omega

/-- C7: on a successful fetch, fetchDriverLaps returns the laps stable-
sorted by lap number descending and truncated to the first limit elements;
in the concrete scenario of twelve laps numbered 1..12 with limit 10, the
returned lap numbers are 12 down to 3. -/
theorem fetchDriverLaps_desc_truncated :
    (∀ (laps : List F1Lap) (limit : Nat),
      fetchDriverLaps (.ok laps) limit = (laps.mergeSort lapDescLe).take limit ∧
      List.Perm (laps.mergeSort lapDescLe) laps ∧
      (fetchDriverLaps (.ok laps) limit).Pairwise
        (fun a b => b.lap_number ≤ a.lap_number)) ∧
    (fetchDriverLaps (.ok twelveLaps) 10).map (fun l => l.lap_number) =
      [12, 11, 10, 9, 8, 7, 6, 5, 4, 3] := by
  have hsorted : ∀ laps : List F1Lap,
      (laps.mergeSort lapDescLe).Pairwise (fun a b => b.lap_number ≤ a.lap_number) :=
    fun laps => (List.sorted_mergeSort lapDescLe_trans lapDescLe_total laps).imp
      (fun h => of_decide_eq_true h)
  constructor
  · intro laps limit
    refine ⟨rfl, List.mergeSort_perm laps lapDescLe, ?_⟩
    show ((laps.mergeSort lapDescLe).take limit).Pairwise _
    exact List.Pairwise.sublist (List.take_sublist limit _) (hsorted laps)
  · have hperm : List.Perm ((twelveLaps.mergeSort lapDescLe).map (fun l => l.lap_number))
        (twelveLaps.map (fun l => l.lap_number)) :=
      (List.mergeSort_perm twelveLaps lapDescLe).map _
    have hmap : twelveLaps.map (fun l => l.lap_number) =
        [1, 2, 3, 4, 5, 6, 7, 8, 9, 10, 11, 12] := by decide
    have hperm2 : List.Perm ((twelveLaps.mergeSort lapDescLe).map (fun l => l.lap_number))
        [12, 11, 10, 9, 8, 7, 6, 5, 4, 3, 2, 1] := by
      refine hperm.trans ?_
      rw [hmap]
      decide
    have hsorted_nat :
        ((twelveLaps.mergeSort lapDescLe).map (fun l => l.lap_number)).Pairwise
          (fun a b : Nat => b ≤ a) := by
      rw [List.pairwise_map]
      exact hsorted twelveLaps
    have hRHS : ([12, 11, 10, 9, 8, 7, 6, 5, 4, 3, 2, 1] : List Nat).Pairwise
        (fun a b : Nat => b ≤ a) := by decide
    have heq : (twelveLaps.mergeSort lapDescLe).map (fun l => l.lap_number) =
        [12, 11, 10, 9, 8, 7, 6, 5, 4, 3, 2, 1] :=
      @List.eq_of_perm_of_sorted Nat (fun a b : Nat => b ≤ a)
        ⟨fun a b h₁ h₂ => Nat.le_antisymm h₂ h₁⟩ _ _ hperm2 hsorted_nat hRHS
    show ((twelveLaps.mergeSort lapDescLe).take 10).map (fun l => l.lap_number) = _
    rw [List.map_take, heq]
    rfl

theorem localeCompare_neg (a b : String) : localeCompare b a = -localeCompare a b := by
  unfold localeCompare
  rcases lt_trichotomy a b with h | rfl | h
  · simp [h, asymm h]
  · simp [lt_irrefl]
  · simp [h, asymm h]

theorem localeCompare_nonpos_iff (a b : String) : localeCompare a b ≤ 0 ↔ a ≤ b := by
  unfold localeCompare
  rcases lt_trichotomy a b with h | rfl | h
  · simp [h, asymm h, h.le]
  · simp [lt_irrefl]
  · simp [h, asymm h, not_le.mpr h]

theorem localeCompare_nonneg_iff (a b : String) : 0 ≤ localeCompare a b ↔ b ≤ a := by
  rw [← neg_nonpos, ← localeCompare_neg a b]
  exact localeCompare_nonpos_iff b a

theorem sortValueCompare_neg (sc : SortConfig) (a b : F1Driver) :
    sortValueCompare sc b a = -sortValueCompare sc a b := by
  rcases sc with ⟨opt, ord⟩
  cases opt <;> cases ord <;> simp only [sortValueCompare] <;>
    first
      | exact localeCompare_neg _ _
      | exact congrArg Neg.neg (localeCompare_neg _ _)
      | omega

theorem sortLe_total (sc : SortConfig) (a b : F1Driver) :
    sortLe sc a b || sortLe sc b a := by
  simp only [sortLe, Bool.or_eq_true, decide_eq_true_eq]
  have h := sortValueCompare_neg sc a b
  omega

theorem sortLe_trans (sc : SortConfig) (a b c : F1Driver)
    (hab : sortLe sc a b = true) (hbc : sortLe sc b c = true) :
    sortLe sc a c = true := by
  simp only [sortLe, decide_eq_true_eq] at *
  rcases sc with ⟨opt, ord⟩
  cases opt <;> cases ord <;> simp only [sortValueCompare] at * <;>
    first
      | (rw [localeCompare_nonpos_iff] at hab hbc ⊢; exact le_trans hab hbc)
      | (rw [neg_nonpos, localeCompare_nonneg_iff] at hab hbc ⊢; exact le_trans hbc hab)
      | omega

theorem charsInfixOf_nil (l : List Char) : charsInfixOf [] l = true := by
  cases l <;> simp [charsInfixOf, List.isPrefixOf]

theorem driverPasses_empty (d : F1Driver) : driverPasses d "" "" "" = true := by
  have h0 : strIncludes (jsToLower d.full_name) (jsToLower "") = true := by
    show charsInfixOf (jsToLower "").data (jsToLower d.full_name).data = true
    rw [show (jsToLower "").data = [] from rfl, charsInfixOf_nil]
  simp [driverPasses, matchesSearch, matchesTeam, matchesCountry, h0]

/-- C5: with an empty query, empty team and country filters, and the
ascending driver-number sort, the query engine returns a permutation of
the whole input (nothing lost or duplicated) sorted ascending by driver
number. -/
theorem filteredAndSortedDrivers_default (drivers : List F1Driver) :
    List.Perm
      (filteredAndSortedDrivers drivers "" "" "" ⟨.driver_number, .asc⟩) drivers ∧
    (filteredAndSortedDrivers drivers "" "" "" ⟨.driver_number, .asc⟩).Pairwise
      (fun a b => a.driver_number ≤ b.driver_number) := by
  have hfilter : drivers.filter (fun d => driverPasses d "" "" "") = drivers :=
    List.filter_eq_self.mpr (fun d _ => driverPasses_empty d)
  have hchar : ∀ a b : F1Driver, sortLe ⟨.driver_number, .asc⟩ a b = true →
      a.driver_number ≤ b.driver_number := by
    intro a b h
    simp only [sortLe, decide_eq_true_eq, sortValueCompare] at h
    omega
  constructor
  · show List.Perm ((drivers.filter _).mergeSort _) drivers
    rw [hfilter]
    exact List.mergeSort_perm drivers _
  · show ((drivers.filter _).mergeSort _).Pairwise _
    exact (List.sorted_mergeSort (sortLe_trans ⟨.driver_number, .asc⟩)
      (sortLe_total ⟨.driver_number, .asc⟩)
      (drivers.filter (fun d => driverPasses d "" "" ""))).imp
      (fun h => hchar _ _ h)

/-- C6: the query engine's sort is stable for every sort configuration —
two drivers that pass the filter, occur in input order, and compare equal
under the selected comparator occur in the same relative order in the
output. -/
theorem filteredAndSortedDrivers_stable (drivers : List F1Driver)
    (q tf cf : String) (sc : SortConfig) (a b : F1Driver)
    (hsub : List.Sublist [a, b] drivers)
    (hpa : driverPasses a q tf cf = true)
    (hpb : driverPasses b q tf cf = true)
    (htie : sortValueCompare sc a b = 0) :
    List.Sublist [a, b] (filteredAndSortedDrivers drivers q tf cf sc) := by
  have hfsub : List.Sublist [a, b]
      (drivers.filter (fun d => driverPasses d q tf cf)) := by
    have h := List.Sublist.filter (fun d => driverPasses d q tf cf) hsub
    simpa [List.filter, hpa, hpb] using h
  have hle : sortLe sc a b = true := by
    simp [sortLe, htie]
  exact List.pair_sublist_mergeSort (sortLe_trans sc) (sortLe_total sc) hle hfsub

/-- Witness for the C6 theorem: two sample drivers of the same team keep
their input order under the team sort. -/
theorem filteredAndSortedDrivers_stable_witness :
    driverPasses sampleD1 "" "" "" = true ∧
    driverPasses sampleD2 "" "" "" = true ∧
    sortValueCompare ⟨.team, .asc⟩ sampleD1 sampleD2 = 0 ∧
    List.Sublist [sampleD1, sampleD2]
      (filteredAndSortedDrivers [sampleD1, sampleD2, sampleD3] "" "" ""
        ⟨.team, .asc⟩) := by
  have htie : sortValueCompare ⟨.team, .asc⟩ sampleD1 sampleD2 = 0 := by
    simp [sortValueCompare, sampleD1, sampleD2, jsOrStr, localeCompare, lt_irrefl]
  refine ⟨driverPasses_empty sampleD1, driverPasses_empty sampleD2, htie, ?_⟩
  exact filteredAndSortedDrivers_stable [sampleD1, sampleD2, sampleD3] "" "" ""
    ⟨.team, .asc⟩ sampleD1 sampleD2
    (List.Sublist.cons₂ _ (List.Sublist.cons₂ _ (List.nil_sublist [sampleD3])))
    (driverPasses_empty sampleD1) (driverPasses_empty sampleD2) htie

theorem driverNumLe_trans (a b c : F1Driver)
    (hab : decide (a.driver_number ≤ b.driver_number) = true)
    (hbc : decide (b.driver_number ≤ c.driver_number) = true) :
    decide (a.driver_number ≤ c.driver_number) = true := by
  simp only [decide_eq_true_eq] at *
  omega

theorem driverNumLe_total (a b : F1Driver) :
    (decide (a.driver_number ≤ b.driver_number) ||
     decide (b.driver_number ≤ a.driver_number)) = true := by
  simp only [Bool.or_eq_true, decide_eq_true_eq]
  omega

/-- C3: the navigation core sorts the drivers ascending by driver number
(a permutation of the input); when the requested number is found at index
i of the sorted list, previous is the element at i-1 (null at the
minimum) and next the element at i+1 (null at the maximum); when it is
not found, previous is null and next is the first element of the sorted
list. -/
theorem navigateDrivers_spec (drivers : List F1Driver) (n : Nat) :
    List.Perm (sortDriversByNumber drivers) drivers ∧
    (sortDriversByNumber drivers).Pairwise
      (fun a b => a.driver_number ≤ b.driver_number) ∧
    (∀ i, (sortDriversByNumber drivers).findIdx?
        (fun d => d.driver_number == n) = some i →
      navigateDrivers drivers n =
        ((if 0 < i then (sortDriversByNumber drivers)[i - 1]? else none),
         (if i + 1 < (sortDriversByNumber drivers).length then
            (sortDriversByNumber drivers)[i + 1]? else none))) ∧
    ((sortDriversByNumber drivers).findIdx?
        (fun d => d.driver_number == n) = none →
      navigateDrivers drivers n = (none, (sortDriversByNumber drivers).head?)) := by
  refine ⟨List.mergeSort_perm drivers _, ?_, ?_, ?_⟩
  · exact (List.sorted_mergeSort driverNumLe_trans driverNumLe_total drivers).imp
      (fun h => of_decide_eq_true h)
  · intro i hfind
    simp only [navigateDrivers, jsFindIndex, hfind]
    refine Prod.ext ?_ ?_
    · show (if (0 : Int) < (i : Int) then
          (sortDriversByNumber drivers)[((i : Int) - 1).toNat]? else none) = _
      by_cases h : 0 < i
      · have h' : (0 : Int) < (i : Int) := by omega
        rw [if_pos h', if_pos h]
        congr 1
        omega
      · have h' : ¬((0 : Int) < (i : Int)) := by omega
        rw [if_neg h', if_neg h]
    · show (if (i : Int) < ((sortDriversByNumber drivers).length : Int) - 1 then
          (sortDriversByNumber drivers)[((i : Int) + 1).toNat]? else none) = _
      by_cases h : i + 1 < (sortDriversByNumber drivers).length
      · have h' : (i : Int) < ((sortDriversByNumber drivers).length : Int) - 1 := by
          omega
        rw [if_pos h', if_pos h]
        congr 1
      · have h' : ¬((i : Int) < ((sortDriversByNumber drivers).length : Int) - 1) := by
          omega
        rw [if_neg h', if_neg h]
  · intro hfind
    simp only [navigateDrivers, jsFindIndex, hfind]
    refine Prod.ext ?_ ?_
    · show (if (0 : Int) < -1 then
          (sortDriversByNumber drivers)[((-1 : Int) - 1).toNat]? else none) =
        (none : Option F1Driver)
      rw [if_neg (by norm_num)]
    · show (if (-1 : Int) < ((sortDriversByNumber drivers).length : Int) - 1 then
          (sortDriversByNumber drivers)[((-1 : Int) + 1).toNat]? else none) =
        (sortDriversByNumber drivers).head?
      generalize (sortDriversByNumber drivers) = s
      cases s with
      | nil =>
        rw [if_neg (by norm_num)]
        simp
      | cons t ts =>
        rw [if_pos (by simp; omega)]
        simp

/-- Witness for the C3 theorem: three sorted sample drivers, requesting
the middle number. -/
theorem navigateDrivers_spec_witness :
    (sortDriversByNumber [sampleD1, sampleD2, sampleD3]).findIdx?
      (fun d => d.driver_number == 2) = some 1 ∧
    navigateDrivers [sampleD1, sampleD2, sampleD3] 2 =
      (some sampleD1, some sampleD3) := by
  have hs : sortDriversByNumber [sampleD1, sampleD2, sampleD3] =
      [sampleD1, sampleD2, sampleD3] := by
    show List.mergeSort [sampleD1, sampleD2, sampleD3]
      (fun a b => decide (a.driver_number ≤ b.driver_number)) =
      [sampleD1, sampleD2, sampleD3]
    exact List.mergeSort_of_sorted (by decide)
  have hfind : (sortDriversByNumber [sampleD1, sampleD2, sampleD3]).findIdx?
      (fun d => d.driver_number == 2) = some 1 := by
    rw [hs]
    decide
  refine ⟨hfind, ?_⟩
  have h := (navigateDrivers_spec [sampleD1, sampleD2, sampleD3] 2).2.2.1 1 hfind
  rw [hs] at h
  simpa using h

theorem teamNames_insertDriver (d : F1Driver) (ts : List F1Team) :
    teamNames (insertDriver d ts) =
      if teamKey d ∈ teamNames ts then teamNames ts
      else teamNames ts ++ [teamKey d] := by
  induction ts with
  | nil => simp [teamNames, insertDriver, pushDriver, newTeam]
  | cons t ts ih =>
    by_cases h : t.team_name = teamKey d
    · simp [insertDriver, h, teamNames, pushDriver]
    · have h' : ¬(teamKey d = t.team_name) := fun hh => h hh.symm
      simp only [insertDriver, if_neg h, teamNames, List.map_cons] at *
      rw [ih]
      by_cases hm : teamKey d ∈ ts.map (fun t => t.team_name) <;>
        simp [hm, h']

theorem teamNames_insertDriver_nodup (d : F1Driver) (ts : List F1Team)
    (h : (teamNames ts).Nodup) : (teamNames (insertDriver d ts)).Nodup := by
  rw [teamNames_insertDriver]
  split_ifs with hm
  · exact h
  · simp [List.nodup_append, h, hm]

theorem driversOfTeam_insertDriver (d : F1Driver) (ts : List F1Team)
    (name : String) :
    driversOfTeam (insertDriver d ts) name =
      if name = teamKey d then driversOfTeam ts name ++ [d]
      else driversOfTeam ts name := by
  induction ts with
  | nil =>
    by_cases h : name = teamKey d
    · simp [insertDriver, driversOfTeam, pushDriver, newTeam, h]
    · have h' : ¬(teamKey d = name) := fun hh => h hh.symm
      simp [insertDriver, driversOfTeam, pushDriver, newTeam, h, h']
  | cons t ts ih =>
    by_cases ht : t.team_name = teamKey d
    · by_cases hn : name = teamKey d
      · have hcond : t.team_name = name := ht.trans hn.symm
        simp [insertDriver, ht, driversOfTeam, pushDriver, hcond, hn]
      · have hcond : ¬(t.team_name = name) := fun hh => hn (hh.symm.trans ht)
        have hcond' : ¬(teamKey d = name) := fun hh => hn hh.symm
        simp [insertDriver, ht, driversOfTeam, pushDriver, hcond, hcond', hn]
    · by_cases hn : t.team_name = name
      · have hnk : ¬(name = teamKey d) := fun hh => ht (hn.trans hh)
        simp [insertDriver, ht, driversOfTeam, hn, hnk]
      · simp [insertDriver, ht, driversOfTeam, hn, ih]

theorem driversOfTeam_foldl (ds : List F1Driver) (acc : List F1Team)
    (name : String) :
    driversOfTeam (ds.foldl (fun acc d => insertDriver d acc) acc) name =
      driversOfTeam acc name ++ ds.filter (fun d => teamKey d == name) := by
  induction ds generalizing acc with
  | nil => simp
  | cons d ds ih =>
    rw [List.foldl_cons, ih, driversOfTeam_insertDriver]
    by_cases h : name = teamKey d
    · have hb : (teamKey d == name) = true := by
        simp [h]
      rw [if_pos h, List.filter_cons, hb]
      simp
    · have hb : (teamKey d == name) = false :=
        beq_eq_false_iff_ne.mpr (fun hh => h hh.symm)
      rw [if_neg h, List.filter_cons, hb]
      simp

theorem aggregateTeams_names_nodup (ds : List F1Driver) :
    (teamNames (aggregateTeams ds)).Nodup := by
  have main : ∀ (l : List F1Driver) (acc : List F1Team),
      (teamNames acc).Nodup →
      (teamNames (l.foldl (fun acc d => insertDriver d acc) acc)).Nodup := by
    intro l
    induction l with
    | nil => intro acc h; simpa using h
    | cons d l ih =>
      intro acc h
      rw [List.foldl_cons]
      exact ih _ (teamNames_insertDriver_nodup d acc h)
  exact main ds [] (by simp [teamNames])

theorem driversOfTeam_eq_of_mem (teams : List F1Team)
    (h : (teamNames teams).Nodup) (t : F1Team) (ht : t ∈ teams) :
    driversOfTeam teams t.team_name = t.drivers := by
  induction teams with
  | nil => cases ht
  | cons u us ih =>
    rw [show teamNames (u :: us) = u.team_name :: teamNames us from rfl,
      List.nodup_cons] at h
    rcases List.mem_cons.mp ht with rfl | hmem
    · simp [driversOfTeam]
    · have hne : ¬(u.team_name = t.team_name) := by
        intro hh
        have hm : t.team_name ∈ teamNames us :=
          List.mem_map_of_mem (fun t => t.team_name) hmem
        rw [← hh] at hm
        exact h.1 hm
      rw [show driversOfTeam (u :: us) t.team_name =
        if u.team_name = t.team_name then u.drivers
        else driversOfTeam us t.team_name from rfl, if_neg hne]
      exact ih h.2 hmem

theorem aggregateTeams_drivers_eq (ds : List F1Driver) (t : F1Team)
    (ht : t ∈ aggregateTeams ds) :
    t.drivers = ds.filter (fun d => teamKey d == t.team_name) := by
  have h1 := driversOfTeam_foldl ds [] t.team_name
  have h2 : driversOfTeam (aggregateTeams ds) t.team_name = t.drivers :=
    driversOfTeam_eq_of_mem (aggregateTeams ds) (aggregateTeams_names_nodup ds) t ht
  rw [aggregateTeams] at h2
  rw [← h2, h1]
  simp [driversOfTeam]

theorem totalMembers_insertDriver (d : F1Driver) (ts : List F1Team) :
    totalMembers (insertDriver d ts) = totalMembers ts + 1 := by
  induction ts with
  | nil => simp [insertDriver, totalMembers, pushDriver, newTeam]
  | cons t ts ih =>
    by_cases h : t.team_name = teamKey d
    · simp [insertDriver, h, totalMembers, pushDriver]
      omega
    · simp only [insertDriver, if_neg h, totalMembers, List.map_cons,
        List.sum_cons] at *
      omega

theorem totalMembers_foldl (ds : List F1Driver) (acc : List F1Team) :
    totalMembers (ds.foldl (fun acc d => insertDriver d acc) acc) =
      totalMembers acc + ds.length := by
  induction ds generalizing acc with
  | nil => simp
  | cons d ds ih =>
    rw [List.foldl_cons, ih, totalMembers_insertDriver, List.length_cons]
    omega

/-- C4: team aggregation drops no driver and duplicates none — each
team's member-list length equals the number of input drivers sharing its
team key, the member counts sum to the input length, and no driver record
belongs to two different teams. -/
theorem aggregateTeams_partition (ds : List F1Driver) :
    (∀ t ∈ aggregateTeams ds,
      t.drivers.length = (ds.filter (fun d => teamKey d == t.team_name)).length) ∧
    ((aggregateTeams ds).map (fun t => t.drivers.length)).sum = ds.length ∧
    (∀ t₁ ∈ aggregateTeams ds, ∀ t₂ ∈ aggregateTeams ds, t₁ ≠ t₂ →
      ∀ d, d ∈ t₁.drivers → d ∉ t₂.drivers) := by
  refine ⟨?_, ?_, ?_⟩
  · intro t ht
    rw [aggregateTeams_drivers_eq ds t ht]
  · have h := totalMembers_foldl ds []
    simpa [totalMembers, aggregateTeams] using h
  · intro t₁ h₁ t₂ h₂ hne d hd₁ hd₂
    have e₁ : (teamKey d == t₁.team_name) = true := by
      rw [aggregateTeams_drivers_eq ds t₁ h₁] at hd₁
      exact (List.mem_filter.mp hd₁).2
    have e₂ : (teamKey d == t₂.team_name) = true := by
      rw [aggregateTeams_drivers_eq ds t₂ h₂] at hd₂
      exact (List.mem_filter.mp hd₂).2
    have hname : t₁.team_name = t₂.team_name :=
      (beq_iff_eq.mp e₁).symm.trans (beq_iff_eq.mp e₂)
    exact hne (List.inj_on_of_nodup_map (aggregateTeams_names_nodup ds) h₁ h₂ hname)

/-- Witness for the C4 theorem: aggregating the three sample drivers, the
Alpha team holds exactly the two drivers sharing its key. -/
theorem aggregateTeams_partition_witness :
    tAlpha ∈ aggregateTeams [sampleD1, sampleD2, sampleD3] ∧
    tAlpha.drivers.length =
      (([sampleD1, sampleD2, sampleD3]).filter
        (fun d => teamKey d == tAlpha.team_name)).length := by
  have hm : tAlpha ∈ aggregateTeams [sampleD1, sampleD2, sampleD3] := by decide
  exact ⟨hm, (aggregateTeams_partition [sampleD1, sampleD2, sampleD3]).1 tAlpha hm⟩
